import Mathlib

/-!
Verification of the datakit span-ingestion pipeline as wired by the jaeger
input (`internal/plugins/inputs/jaeger`), of the otelcol `ApiWrite` API
handler, and of the disk input's `collect`.

The jaeger input's `RegHTTPHandler`, the replay consumer it registers, the
otelcol `ApiWrite` and the disk `collect` are embedded from the source.
The filter stages themselves (`itrace.CloseResource`,
`itrace.PenetrateErrorTracing`, `itrace.KeepRareResource`,
`itrace.Sampler`), the `AfterGather` chain runner, the worker pool and the
storage internals are not part of the provided sources; they are modelled
from the specification, each such definition marked `Modelled from the
spec:`.
-/

/-! ## Span data model -/

/-- A decoded trace span: the fields the filter chain inspects.
Modelled from the spec: "Span: category, name, tag map, field map,
timestamp, error flag"; the filter stages consult service, resource and
the error flag. -/
structure Span where
  service : String
  resource : String
  isError : Bool
  deriving DecidableEq, Repr

/-- A span carried through the chain together with its force-keep mark.
Modelled from the spec: "Force-keep must be represented as an explicit
per-span annotation carried through the chain". -/
structure ASpan where
  span : Span
  forceKeep : Bool
  deriving DecidableEq, Repr

/-! ## Filter stages (modelled from the spec; the itrace package is not
under the provided sources) -/

/-- Modelled from the spec: CloseResource match — "per-service (including a
wildcard \"*\" service applying to all) compiled pattern set on resource
names". `rmatch` stands for the external regexp matcher. -/
def closeMatch (rmatch : String → String → Bool) (rules : List (String × List String))
    (s : Span) : Bool :=
  rules.any fun rule =>
    (rule.1 == s.service || rule.1 == "*") && rule.2.any fun pat => rmatch pat s.resource

/-- Modelled from the spec: CloseResource — "matching spans are dropped
unconditionally". -/
def closeResourceFilter (rmatch : String → String → Bool)
    (rules : List (String × List String)) (spans : List ASpan) : List ASpan :=
  spans.filter fun a => !(closeMatch rmatch rules a.span)

/-- Modelled from the spec: ErrorPenetration — "marks error-flagged spans as
force-kept; does not itself drop anything". -/
def penetrateErrorTracing (spans : List ASpan) : List ASpan :=
  spans.map fun a => if a.span.isError then { a with forceKeep := true } else a

/-- State of the rare-resource keeper: most-recent-first record of
(service, resource, last occurrence time). Modelled from the spec:
"maintains a sliding time window ... cache of (service, resource) pairs". -/
def kLookup (st : List (String × String × Nat)) (svc res : String) : Option Nat :=
  match st with
  | [] => none
  | (s, r, t) :: rest => if s = svc ∧ r = res then some t else kLookup rest svc res

/-- Modelled from the spec: RareResourceKeeper — "the first occurrence of a
pair within the window is force-kept; subsequent occurrences in the same
window are passed through unmarked, deferring the keep/drop decision to
later stages". -/
def keepRareRun (window now : Nat) :
    List (String × String × Nat) → List ASpan → List (String × String × Nat) × List ASpan
  | st, [] => (st, [])
  | st, a :: rest =>
    let rare : Bool :=
      match kLookup st a.span.service a.span.resource with
      | none => true
      | some last => decide (window < now - last)
    let st2 := (a.span.service, a.span.resource, now) :: st
    let out := keepRareRun window now st2 rest
    (out.1, (if rare then { a with forceKeep := true } else a) :: out.2)

/-- Modelled from the spec: Sampler — "applies a configured global keep
probability in [0,1] to any span not already force-kept; force-kept spans
always survive regardless of sampler outcome". `coin` stands for the
sampler's random draw in [0,1). -/
def samplerKeep (coin : Span → ℚ) (rate : ℚ) (spans : List ASpan) : List ASpan :=
  spans.filter fun a => a.forceKeep || decide (coin a.span < rate)

/-! ## The chain as registered by the jaeger input -/

/-- One filter stage appended to the AfterGather chain, with the
configuration the jaeger input passes when appending it. -/
inductive ChainFilter where
  | closeResource (rules : List (String × List String))
  | penetrateErrorTracing
  | keepRareResource (window : Nat)
  | sampler (rate : ℚ)
  deriving DecidableEq, Repr

/-- One second-granularity hour, the `time.Hour` window the jaeger input
passes to `KeepRareResource.UpdateStatus`. -/
def timeHourSeconds : Nat := 3600

/-- Sampler configuration of the jaeger input (`itrace.Sampler`,
field `SamplingRateGlobal`). -/
structure SamplerConf where
  samplingRateGlobal : ℚ
  deriving DecidableEq, Repr

/-- The jaeger `Input` fields that decide which filters are appended. -/
structure JaegerInputConf where
  closeResource : List (String × List String)
  keepRareResource : Bool
  sampler : Option SamplerConf
  deriving DecidableEq, Repr

/-- The filter-appending section of the jaeger input's `RegHTTPHandler`:
append CloseResource when `len(ipt.CloseResource) != 0`, always append
PenetrateErrorTracing, append KeepRareResource (window `time.Hour`) when
`ipt.KeepRareResource`, append Sampler when `ipt.Sampler != nil` and
`0 <= SamplingRateGlobal <= 1`. -/
def regHTTPHandlerFilters (cfg : JaegerInputConf) : List ChainFilter :=
  let fs : List ChainFilter := []
  let fs := if cfg.closeResource.length ≠ 0 then fs ++ [.closeResource cfg.closeResource] else fs
  let fs := fs ++ [.penetrateErrorTracing]
  let fs := if cfg.keepRareResource then fs ++ [.keepRareResource timeHourSeconds] else fs
  match cfg.sampler with
  | some s =>
    if 0 ≤ s.samplingRateGlobal ∧ s.samplingRateGlobal ≤ 1 then fs ++ [.sampler s.samplingRateGlobal]
    else fs
  | none => fs

/-- Run one chain stage on the keeper state and the span list. -/
def applyFilter (rmatch : String → String → Bool) (coin : Span → ℚ) (now : Nat) :
    ChainFilter → List (String × String × Nat) × List ASpan →
      List (String × String × Nat) × List ASpan
  | .closeResource rules, (st, spans) => (st, closeResourceFilter rmatch rules spans)
  | .penetrateErrorTracing, (st, spans) => (st, penetrateErrorTracing spans)
  | .keepRareResource w, (st, spans) => keepRareRun w now st spans
  | .sampler rate, (st, spans) => (st, samplerKeep coin rate spans)

/-- Modelled from the spec: the AfterGather chain runner — "filters execute
strictly in append order, each stage's output feeding the next stage's
input". -/
def runAfterGather (rmatch : String → String → Bool) (coin : Span → ℚ) (now : Nat)
    (filters : List ChainFilter) (st : List (String × String × Nat)) (spans : List ASpan) :
    List (String × String × Nat) × List ASpan :=
  filters.foldl (fun p f => applyFilter rmatch coin now f p) (st, spans)

/-- The jaeger configuration of spec property P1: no close-resource rules,
rare-resource keeping disabled, sampler configured with global rate 0. -/
def jaegerRate0Conf : JaegerInputConf :=
  { closeResource := [], keepRareResource := false, sampler := some ⟨0⟩ }

/-- The jaeger configuration of spec property P3: rare-resource keeping
enabled, sampler configured with global rate 0, no close-resource rules. -/
def jaegerRareConf : JaegerInputConf :=
  { closeResource := [], keepRareResource := true, sampler := some ⟨0⟩ }

/-! ## The durable-buffer replay consumer registered by the jaeger input -/

/-- The `storage.Request` protobuf message the replay payload decodes to.
Modelled from the spec: "a byte-exact serialized snapshot of the original
inbound request (method, protocol version/major/minor, header multimap,
body bytes, content length, transfer encoding, host, form and post-form
fields, remote address, request URI, URL string)"; the message definition
itself is not under the provided sources, but every field below is read by
the jaeger consumer in `RegHTTPHandler`. -/
structure StoredRequest where
  method : String
  proto : String
  protoMajor : Nat
  protoMinor : Nat
  header : List (String × List String)
  body : List Nat
  contentLength : Int
  transferEncoding : List String
  close : Bool
  host : String
  form : List (String × List String)
  postForm : List (String × List String)
  remoteAddr : String
  requestUri : String
  url : String
  deriving DecidableEq, Repr

/-- The `http.Request` fields the jaeger consumer populates; `url` is `none`
when `url.Parse` failed and the field is left nil. -/
structure HTTPRequest where
  method : String
  proto : String
  protoMajor : Nat
  protoMinor : Nat
  header : List (String × List String)
  body : List Nat
  contentLength : Int
  transferEncoding : List String
  close : Bool
  host : String
  form : List (String × List String)
  postForm : List (String × List String)
  remoteAddr : String
  requestUri : String
  url : Option String
  deriving DecidableEq, Repr

/-- Modelled from the spec: `storage.ConvertMapEntriesToMap` converts the
serialized header multimap back into the in-memory multimap; its code is
not under the provided sources, and the spec treats the snapshot as
byte-exact, so the conversion preserves the entries. -/
def convertMapEntriesToMap (entries : List (String × List String)) :
    List (String × List String) :=
  entries

/-- The `http.Request` literal the jaeger consumer builds from the decoded
`storage.Request` (field-by-field from `RegHTTPHandler`), with `url.Parse`
abstracted as `parseURL` and a parse failure leaving the URL nil. -/
def reconstructRequest (parseURL : String → Option String) (reqpb : StoredRequest) :
    HTTPRequest :=
  { method := reqpb.method
    proto := reqpb.proto
    protoMajor := reqpb.protoMajor
    protoMinor := reqpb.protoMinor
    header := convertMapEntriesToMap reqpb.header
    body := reqpb.body
    contentLength := reqpb.contentLength
    transferEncoding := reqpb.transferEncoding
    close := reqpb.close
    host := reqpb.host
    form := convertMapEntriesToMap reqpb.form
    postForm := convertMapEntriesToMap reqpb.postForm
    remoteAddr := reqpb.remoteAddr
    requestUri := reqpb.requestUri
    url := parseURL reqpb.url }

/-- Error returned by the jaeger replay consumer: only the
`proto.Unmarshal` failure is propagated. -/
inductive ReplayError where
  | protoUnmarshal
  deriving DecidableEq, Repr

/-- The consumer the jaeger input registers for `storage.HTTP_KEY`.
`buf` is the decode outcome of `proto.Unmarshal` on the buffered bytes
(`none` = unmarshal failure); `handle` is the handler invoked on the
reconstructed request (its outcome is discarded by the consumer).  The
second component records the requests passed to the handler, so that the
theorems can speak about which handler invocations happen. -/
def jaegerStorageConsumer (parseURL : String → Option String)
    (handle : HTTPRequest → Bool) (buf : Option StoredRequest) :
    Except ReplayError Unit × List HTTPRequest :=
  match buf with
  | none => (Except.error ReplayError.protoUnmarshal, [])
  | some reqpb =>
    let req := reconstructRequest parseURL reqpb
    let _ := handle req
    (Except.ok (), [req])

/-- Modelled from the spec: the serialized snapshot taken by
`httpapi.HTTPStorageWrapper` when a feed fails (not under the provided
sources) — it stores each listed component of the inbound request, the URL
as its string form. -/
def snapshotRequest (r : HTTPRequest) : StoredRequest :=
  { method := r.method
    proto := r.proto
    protoMajor := r.protoMajor
    protoMinor := r.protoMinor
    header := r.header
    body := r.body
    contentLength := r.contentLength
    transferEncoding := r.transferEncoding
    close := r.close
    host := r.host
    form := r.form
    postForm := r.postForm
    remoteAddr := r.remoteAddr
    requestUri := r.requestUri
    url := r.url.getD "" }

/-- The named trace handlers occurring in the jaeger input source. -/
inductive JaegerHTTPHandler where
  | handleJaegerTrace
  deriving DecidableEq, Repr

/-- The handler the registered storage consumer invokes on the
reconstructed request (`handleJaegerTrace(&httpapi.NopResponseWriter{}, req)`). -/
def storageReplayHandler : JaegerHTTPHandler := JaegerHTTPHandler.handleJaegerTrace

/-- The innermost handler the live HTTP route wraps
(`httpapi.HTTPStorageWrapper(storage.HTTP_KEY, httpStatusRespFunc, localCache,
handleJaegerTrace)`). -/
def liveRouteHandler : JaegerHTTPHandler := JaegerHTTPHandler.handleJaegerTrace

/-- A sample inbound request used to exercise the replay round trip. -/
def jaegerSampleRequest : HTTPRequest :=
  { method := "POST"
    proto := "HTTP/1.1"
    protoMajor := 1
    protoMinor := 1
    header := [("Content-Type", ["application/x-thrift"])]
    body := [10, 20, 30]
    contentLength := 3
    transferEncoding := []
    close := false
    host := "localhost:9529"
    form := []
    postForm := []
    remoteAddr := "127.0.0.1:51334"
    requestUri := "/apis/traces"
    url := some "http://localhost:9529/apis/traces" }

/-! ## AfterGather construction: retry wiring -/

/-- The local cache as the jaeger input sees it: either nil (`none`) or an
instance whose `Enabled()` reports whether the on-disk open succeeded. -/
structure StorageHandle where
  enabled : Bool
  deriving DecidableEq, Repr

/-- The Go condition `localCache != nil && localCache.Enabled()`. -/
def storageUsable : Option StorageHandle → Bool
  | some c => c.enabled
  | none => false

/-- The retry interval (in milliseconds) the jaeger input's
`RegHTTPHandler` passes to `itrace.NewAfterGather`: `WithRetry(100 *
time.Millisecond)` exactly when the local cache is non-nil and enabled,
otherwise no retry option. -/
def regHTTPHandlerRetryMs (localCache : Option StorageHandle) : Option Nat :=
  if storageUsable localCache then some 100 else none

/-- What happens to data whose terminal feed failed. -/
inductive FeedFailureOutcome where
  | buffered
  | loggedAndDropped
  deriving DecidableEq, Repr

/-- Modelled from the spec: "FeedError — downstream unavailable; buffered if
storage is enabled and healthy, otherwise logged and dropped". -/
def feedFailureOutcome (localCache : Option StorageHandle) : FeedFailureOutcome :=
  if storageUsable localCache then FeedFailureOutcome.buffered
  else FeedFailureOutcome.loggedAndDropped

/-! ## Worker pool (modelled from the spec; the workerpool package is not
under the provided sources) -/

/-- The pool configuration `{buffer size, worker count, submit timeout}`. -/
structure WorkerPoolConf where
  buffer : Nat
  threads : Nat
  timeoutMs : Nat
  deriving DecidableEq, Repr

/-- Outcome of one `Submit` call, with the time (ms) the call waited. -/
inductive SubmitResult where
  | enqueued (waitedMs : Nat)
  | admissionRejected (waitedMs : Nat)
  deriving DecidableEq, Repr

/-- Modelled from the spec: "`Submit(job)` enqueues; if the queue is full,
it waits up to the configured timeout, then fails with `AdmissionRejected`"
— surfaced to the caller immediately, never internally retried (a single
bounded wait).  `inflight` is the number of previously submitted,
not-yet-completed jobs; `slotFreedAfterMs` is how long until one of them
completes and frees queue space (`none` = not during this call). -/
def wpSubmit (cfg : WorkerPoolConf) (inflight : Nat) (slotFreedAfterMs : Option Nat) :
    SubmitResult :=
  if inflight < cfg.buffer then SubmitResult.enqueued 0
  else
    match slotFreedAfterMs with
    | some d =>
      if d ≤ cfg.timeoutMs then SubmitResult.enqueued d
      else SubmitResult.admissionRejected cfg.timeoutMs
    | none => SubmitResult.admissionRejected cfg.timeoutMs

/-! ## otelcol ApiWrite -/

/-- An ingested point (opaque for this development). -/
abbrev OtelPoint := String

/-- The implementation of `OtelAPIWrite` reached by a type assertion:
`Feed(req, category, points) error`, modelled by the error value the feed
returns (`none` = nil error). -/
structure OtelAPIWrite where
  feedResult : String → List OtelPoint → Option String

/-- A value passed through `ApiWrite`'s variadic `x ...interface{}`. -/
inductive GoValue where
  | otel (h : OtelAPIWrite)
  | other

/-- The Go type assertion `x[0].(OtelAPIWrite)`. -/
def asOtelAPIWrite : GoValue → Option OtelAPIWrite
  | GoValue.otel h => some h
  | GoValue.other => none

/-- Errors visible through `ApiWrite`. -/
inductive APIError where
  | invalidAPIHandler
  | writeError (msg : String)
  deriving DecidableEq, Repr

/-- What `wr.APIV1Write(req)` produced on success: category, parsed points
and the response body to return. -/
structure WriteResult where
  category : String
  points : List OtelPoint
  respBody : Option String

/-- A call made to the handler's `Feed`. -/
structure FeedCall where
  category : String
  points : List OtelPoint

/-- The otelcol `ApiWrite` handler: reject unless the variadic list is
exactly one value implementing `OtelAPIWrite`; propagate the `APIV1Write`
error; on success call `Feed` only when the parsed point list is non-empty
(its error is ignored) and return the response body with a nil error.
`parse` is the outcome of `wr.APIV1Write(req)`; the second component
records the `Feed` calls made. -/
def ApiWrite (parse : Except APIError WriteResult) (x : List GoValue) :
    Except APIError (Option String) × List FeedCall :=
  match x with
  | [v] =>
    match asOtelAPIWrite v with
    | some h =>
      match parse with
      | Except.error e => (Except.error e, [])
      | Except.ok wr =>
        if wr.points.length ≠ 0 then
          let _ := h.feedResult wr.category wr.points
          (Except.ok wr.respBody, [⟨wr.category, wr.points⟩])
        else (Except.ok wr.respBody, [])
    | none => (Except.error APIError.invalidAPIHandler, [])
  | _ => (Except.error APIError.invalidAPIHandler, [])

/-! ## disk input collect -/

/-- A partition's usage entry as returned by `FilterUsage` (the fields the
collect loop reads). -/
structure DiskUsage where
  total : Nat
  used : Nat
  free : Nat
  fstype : String
  deriving DecidableEq, Repr

/-- The `used_percent` computation of the disk collect loop: divide only
under the guard `du.Used+du.Free > 0`, otherwise report 0. -/
def usedPercent (du : DiskUsage) : ℚ :=
  if du.used + du.free > 0 then
    (du.used : ℚ) / ((du.used : ℚ) + (du.free : ℚ)) * 100
  else 0

/-- The fields of the metric point the disk collect loop appends that this
development tracks. -/
structure DiskPoint where
  device : String
  fstype : String
  total : Nat
  free : Nat
  used : Nat
  usedPct : ℚ
  deriving DecidableEq, Repr

/-- One iteration of the disk collect loop: skip a nil usage entry, skip a
zero-total (dummy) filesystem, otherwise build the point. -/
def collectEntry (device : String) (du : Option DiskUsage) : Option DiskPoint :=
  match du with
  | none => none
  | some du =>
    if du.total = 0 then none
    else
      some { device := device, fstype := du.fstype, total := du.total,
             free := du.free, used := du.used, usedPct := usedPercent du }

/-- The disk collect loop over the (partition device, usage) pairs returned
by `FilterUsage`. -/
def diskCollect (entries : List (String × Option DiskUsage)) : List DiskPoint :=
  entries.filterMap fun e => collectEntry e.1 e.2

/-! ## Helper lemmas on the chain -/

lemma regHTTPHandlerFilters_eq (cfg : JaegerInputConf) :
    regHTTPHandlerFilters cfg =
      (if cfg.closeResource.length ≠ 0 then [ChainFilter.closeResource cfg.closeResource] else [])
        ++ [ChainFilter.penetrateErrorTracing]
        ++ (if cfg.keepRareResource then [ChainFilter.keepRareResource timeHourSeconds] else [])
        ++ (match cfg.sampler with
            | some s =>
              if 0 ≤ s.samplingRateGlobal ∧ s.samplingRateGlobal ≤ 1 then
                [ChainFilter.sampler s.samplingRateGlobal]
              else []
            | none => []) := by
  cases hs : cfg.sampler <;>
    simp only [regHTTPHandlerFilters, hs] <;>
    split_ifs <;> simp

lemma penetrate_map_unkept (spans : List Span) :
    penetrateErrorTracing (spans.map fun s => ⟨s, false⟩) =
      spans.map fun s => ⟨s, s.isError⟩ := by
  induction spans with
  | nil => rfl
  | cons s rest ih =>
    simp only [List.map_cons, penetrateErrorTracing] at *
    cases h : s.isError <;> simp [h, ih]

lemma samplerKeep_rate_zero (coin : Span → ℚ) (hcoin : ∀ s, 0 ≤ coin s)
    (spans : List ASpan) :
    samplerKeep coin 0 spans = spans.filter (·.forceKeep) := by
  unfold samplerKeep
  refine List.filter_congr fun a _ => ?_
  have h : ¬ coin a.span < 0 := not_lt.mpr (hcoin a.span)
  simp [h]

lemma sampler_mem_regHTTPHandlerFilters (cfg : JaegerInputConf) (r : ℚ) :
    ChainFilter.sampler r ∈ regHTTPHandlerFilters cfg ↔
      cfg.sampler = some ⟨r⟩ ∧ 0 ≤ r ∧ r ≤ 1 := by
  rcases cfg with ⟨cr, krr, s⟩
  rw [regHTTPHandlerFilters_eq]
  cases s with
  | none => split_ifs <;> simp
  | some sc =>
    rcases sc with ⟨rg⟩
    dsimp only
    by_cases hr : 0 ≤ rg ∧ rg ≤ 1
    · constructor
      · intro hmem
        split_ifs at hmem <;> simp_all
      · rintro ⟨hs, h0, h1⟩
        obtain rfl : rg = r := by simpa using hs
        split_ifs <;> simp_all
    · constructor
      · intro hmem
        split_ifs at hmem <;> simp_all
      · rintro ⟨hs, h0, h1⟩
        obtain rfl : rg = r := by simpa using hs
        exact absurd ⟨h0, h1⟩ hr

lemma filter_forceKeep_of_marked (spans : List Span) :
    ((spans.map fun s => ⟨s, s.isError⟩ : List ASpan).filter (·.forceKeep)) =
      (spans.filter (·.isError)).map fun s => ⟨s, true⟩ := by
  induction spans with
  | nil => rfl
  | cons s rest ih =>
    cases h : s.isError <;> simp [h, ih]

/-! ## Claim theorems -/

/-- C1: In the jaeger input's `RegHTTPHandler`, filter stages are appended to
the AfterGather chain in exactly the order CloseResource (only when
close-resource rules are configured), PenetrateErrorTracing (always),
KeepRareResource (only when keep-rare-resource is enabled), Sampler (only
when a sampler with a global rate in [0,1] is configured); and every chain
invocation executes the filters strictly in append order, each stage's
output feeding the next stage's input. -/
theorem jaeger_filter_registration_order :
    (∀ cfg : JaegerInputConf,
      regHTTPHandlerFilters cfg =
        (if cfg.closeResource ≠ [] then [ChainFilter.closeResource cfg.closeResource] else [])
          ++ [ChainFilter.penetrateErrorTracing]
          ++ (if cfg.keepRareResource then [ChainFilter.keepRareResource timeHourSeconds] else [])
          ++ (match cfg.sampler with
              | some s =>
                if 0 ≤ s.samplingRateGlobal ∧ s.samplingRateGlobal ≤ 1 then
                  [ChainFilter.sampler s.samplingRateGlobal]
                else []
              | none => [])) ∧
    (∀ rmatch coin now fs f st spans,
      runAfterGather rmatch coin now (fs ++ [f]) st spans =
        applyFilter rmatch coin now f (runAfterGather rmatch coin now fs st spans)) ∧
    (∀ rmatch coin now f fs st spans,
      runAfterGather rmatch coin now (f :: fs) st spans =
        runAfterGather rmatch coin now fs
          (applyFilter rmatch coin now f (st, spans)).1
          (applyFilter rmatch coin now f (st, spans)).2) := by
  refine ⟨fun cfg => ?_, fun rmatch coin now fs f st spans => ?_,
    fun rmatch coin now f fs st spans => rfl⟩
  · rw [regHTTPHandlerFilters_eq]
    by_cases h : cfg.closeResource = [] <;> simp [h]
  · simp [runAfterGather, List.foldl_append]

/-- C2: The Sampler stage keeps every force-kept span regardless of the draw,
keeps a non-force-kept span exactly when its draw lies below the configured
rate; with sampler rate 0 and ErrorPenetration in the chain, every
error-flagged span survives the full chain and every non-error span is
dropped; and the jaeger input appends the Sampler stage exactly when a
sampler with `SamplingRateGlobal` between 0 and 1 inclusive is configured. -/
theorem jaeger_sampler_semantics (coin : Span → ℚ) (hcoin : ∀ s, 0 ≤ coin s) :
    (∀ (rate : ℚ) (spans : List ASpan) (a : ASpan),
        a ∈ spans → a.forceKeep = true → a ∈ samplerKeep coin rate spans) ∧
    (∀ (rate : ℚ) (spans : List ASpan) (a : ASpan),
        a ∈ spans → a.forceKeep = false →
          (a ∈ samplerKeep coin rate spans ↔ coin a.span < rate)) ∧
    (∀ (rmatch : String → String → Bool) (now : Nat)
        (st : List (String × String × Nat)) (spans : List Span),
        (runAfterGather rmatch coin now (regHTTPHandlerFilters jaegerRate0Conf) st
            (spans.map fun s => ⟨s, false⟩)).2 =
          (spans.filter (·.isError)).map fun s => ⟨s, true⟩) ∧
    (∀ (cfg : JaegerInputConf) (r : ℚ),
        ChainFilter.sampler r ∈ regHTTPHandlerFilters cfg ↔
          cfg.sampler = some ⟨r⟩ ∧ 0 ≤ r ∧ r ≤ 1) := by
  refine ⟨?_, ?_, ?_, ?_⟩
  · intro rate spans a ha hk
    simp [samplerKeep, List.mem_filter, ha, hk]
  · intro rate spans a ha hk
    simp [samplerKeep, List.mem_filter, ha, hk]
  · intro rmatch now st spans
    have hfs : regHTTPHandlerFilters jaegerRate0Conf =
        [ChainFilter.penetrateErrorTracing, ChainFilter.sampler 0] := by decide
    rw [hfs]
    show (samplerKeep coin 0 (penetrateErrorTracing (spans.map fun s => ⟨s, false⟩))) =
      (spans.filter (·.isError)).map fun s => ⟨s, true⟩
    rw [penetrate_map_unkept, samplerKeep_rate_zero coin hcoin,
      filter_forceKeep_of_marked]
  · intro cfg r
    exact sampler_mem_regHTTPHandlerFilters cfg r

/-- Witness for C2: a concrete draw function, the P1 configuration and a
two-span batch (one error-flagged, one not). -/
theorem jaeger_sampler_semantics_witness :
    (runAfterGather (fun _ _ => false) (fun _ => (1 : ℚ)/2) 0
        (regHTTPHandlerFilters jaegerRate0Conf) []
        (([⟨"s1", "r1", true⟩, ⟨"s2", "r2", false⟩] : List Span).map fun s => ⟨s, false⟩)).2 =
      (([⟨"s1", "r1", true⟩, ⟨"s2", "r2", false⟩] : List Span).filter (·.isError)).map
        (fun s => ⟨s, true⟩) :=
  (jaeger_sampler_semantics (fun _ => (1 : ℚ)/2) (fun _ => by norm_num)).2.2.1
    (fun _ _ => false) 0 [] _

/-- C3: a buffered entry's successful replay re-enters the pipeline through
the identical handler that serves live HTTP requests: the consumer the
jaeger input registers for the storage key invokes `handleJaegerTrace`, the
same handler wrapped by the live route, and its only handler invocation is
on the request reconstructed from the buffered payload — no special-casing
for retried data. -/
theorem jaeger_replay_same_handler :
    storageReplayHandler = liveRouteHandler ∧
    (∀ (parseURL : String → Option String) (handle : HTTPRequest → Bool)
        (reqpb : StoredRequest),
        (jaegerStorageConsumer parseURL handle (some reqpb)).2 =
          [reconstructRequest parseURL reqpb]) ∧
    (∀ (parseURL : String → Option String) (handle : HTTPRequest → Bool),
        (jaegerStorageConsumer parseURL handle none).2 = []) :=
  ⟨rfl, fun _ _ _ => rfl, fun _ _ => rfl⟩

/-- C4: the replay payload is a self-contained snapshot of the original
inbound request, and the jaeger replay consumer reconstructs from it an
`http.Request` carrying every listed component — method, protocol
version/major/minor, header multimap, body bytes, content length, transfer
encoding, host, form and post-form fields, remote address, request URI and
URL — recovering the original request whenever the URL string parses back
to the original URL. -/
theorem jaeger_replay_reconstruction (r : HTTPRequest) (u : String)
    (parseURL : String → Option String)
    (h1 : r.url = some u) (h2 : parseURL u = some u) :
    reconstructRequest parseURL (snapshotRequest r) = r := by
  rcases r with ⟨m, p, pj, pn, hd, b, cl, te, c, ho, f, pf, ra, ru, url⟩
  cases h1
  simp [reconstructRequest, snapshotRequest, convertMapEntriesToMap, h2]

/-- Witness for C4 at the sample request with a parser that returns the
string unchanged. -/
theorem jaeger_replay_reconstruction_witness :
    reconstructRequest some (snapshotRequest jaegerSampleRequest) = jaegerSampleRequest :=
  jaeger_replay_reconstruction jaegerSampleRequest "http://localhost:9529/apis/traces"
    some rfl rfl

/-- C8: the replay consumer the jaeger input registers returns a non-nil
error exactly when protobuf unmarshalling of the buffered payload fails;
whenever unmarshalling succeeds it returns nil, for every URL parser
(including an always-failing one) and every handler outcome. -/
theorem jaeger_consumer_error_only_unmarshal :
    ∀ (parseURL : String → Option String) (handle : HTTPRequest → Bool),
      ((jaegerStorageConsumer parseURL handle none).1 =
        Except.error ReplayError.protoUnmarshal) ∧
      (∀ reqpb, (jaegerStorageConsumer parseURL handle (some reqpb)).1 = Except.ok ()) ∧
      (∀ buf, (jaegerStorageConsumer parseURL handle buf).1 = Except.ok () ↔ buf.isSome) := by
  intro parseURL handle
  refine ⟨rfl, fun _ => rfl, fun buf => ?_⟩
  cases buf <;> simp [jaegerStorageConsumer]

lemma keepRare_mem_regHTTPHandlerFilters (cfg : JaegerInputConf) (w : Nat) :
    ChainFilter.keepRareResource w ∈ regHTTPHandlerFilters cfg ↔
      cfg.keepRareResource = true ∧ w = timeHourSeconds := by
  rcases cfg with ⟨cr, krr, s⟩
  rw [regHTTPHandlerFilters_eq]
  cases s with
  | none => dsimp only; split_ifs <;> simp_all
  | some sc => dsimp only; split_ifs <;> simp_all

/-- C5: the jaeger input configures the RareResourceKeeper with a one-hour
window; the first occurrence of a (service, resource) pair within the
window is force-kept, a pair seen again inside the window passes through
unmarked; and in the chain with sampler rate 0 the first occurrence of a
pair is kept while the same pair one second later is dropped. -/
theorem jaeger_rare_resource_keeper :
    (∀ (cfg : JaegerInputConf) (w : Nat),
        ChainFilter.keepRareResource w ∈ regHTTPHandlerFilters cfg ↔
          cfg.keepRareResource = true ∧ w = timeHourSeconds) ∧
    (∀ (window now : Nat) (st : List (String × String × Nat)) (a : ASpan),
        kLookup st a.span.service a.span.resource = none →
        keepRareRun window now st [a] =
          ((a.span.service, a.span.resource, now) :: st, [{ a with forceKeep := true }])) ∧
    (∀ (window now : Nat) (st : List (String × String × Nat)) (a : ASpan) (last : Nat),
        kLookup st a.span.service a.span.resource = some last →
        now - last ≤ window →
        keepRareRun window now st [a] = ((a.span.service, a.span.resource, now) :: st, [a])) ∧
    ((runAfterGather (fun _ _ => false) (fun _ => (1 : ℚ)) 0
        (regHTTPHandlerFilters jaegerRareConf) [] [⟨⟨"svc1", "res1", false⟩, false⟩]).2 =
      [⟨⟨"svc1", "res1", false⟩, true⟩]) ∧
    ((runAfterGather (fun _ _ => false) (fun _ => (1 : ℚ)) 1
        (regHTTPHandlerFilters jaegerRareConf)
        (runAfterGather (fun _ _ => false) (fun _ => (1 : ℚ)) 0
          (regHTTPHandlerFilters jaegerRareConf) [] [⟨⟨"svc1", "res1", false⟩, false⟩]).1
        [⟨⟨"svc1", "res1", false⟩, false⟩]).2 = []) := by
  refine ⟨keepRare_mem_regHTTPHandlerFilters, ?_, ?_, by decide, by decide⟩
  · intro window now st a h
    simp [keepRareRun, h]
  · intro window now st a last h hle
    have hnotlt : ¬ window < now - last := Nat.not_lt.mpr hle
    simp [keepRareRun, h, hnotlt]

/-- Witness for C5: first occurrence of a concrete pair against the empty
keeper state, and a repeat occurrence one second later. -/
theorem jaeger_rare_resource_keeper_witness :
    keepRareRun 3600 0 [] [⟨⟨"a", "b", false⟩, false⟩] =
      ([("a", "b", 0)], [⟨⟨"a", "b", false⟩, true⟩]) ∧
    keepRareRun 3600 1 [("a", "b", 0)] [⟨⟨"a", "b", false⟩, false⟩] =
      ([("a", "b", 1), ("a", "b", 0)], [⟨⟨"a", "b", false⟩, false⟩]) :=
  ⟨jaeger_rare_resource_keeper.2.1 3600 0 [] ⟨⟨"a", "b", false⟩, false⟩ rfl,
   jaeger_rare_resource_keeper.2.2.1 3600 1 [("a", "b", 0)] ⟨⟨"a", "b", false⟩, false⟩ 0
     rfl (by decide)⟩

/-- C6: the jaeger input constructs the AfterGather with the 100 ms retry
interval exactly when the local cache is non-nil and enabled; without retry
otherwise, in which case a feed failure is not buffered but degraded to
log-and-drop. -/
theorem jaeger_retry_iff_storage (lc : Option StorageHandle) :
    (regHTTPHandlerRetryMs lc = some 100 ↔ ∃ c, lc = some c ∧ c.enabled = true) ∧
    (regHTTPHandlerRetryMs lc = none →
      feedFailureOutcome lc = FeedFailureOutcome.loggedAndDropped) := by
  refine ⟨?_, ?_⟩
  · cases lc with
    | none => simp [regHTTPHandlerRetryMs, storageUsable]
    | some c =>
      cases hc : c.enabled <;> simp [regHTTPHandlerRetryMs, storageUsable, hc]
  · intro h
    unfold regHTTPHandlerRetryMs at h
    unfold feedFailureOutcome
    by_cases hu : storageUsable lc = true
    · simp [hu] at h
    · rw [Bool.not_eq_true] at hu
      simp [hu]

/-- Witness for C6: a present-but-disabled cache yields no retry and a
log-and-drop feed-failure outcome; an enabled cache yields the 100 ms
retry. -/
theorem jaeger_retry_iff_storage_witness :
    feedFailureOutcome (some ⟨false⟩) = FeedFailureOutcome.loggedAndDropped ∧
    regHTTPHandlerRetryMs (some ⟨true⟩) = some 100 :=
  ⟨(jaeger_retry_iff_storage (some ⟨false⟩)).2 rfl,
   (jaeger_retry_iff_storage (some ⟨true⟩)).1.mpr ⟨⟨true⟩, rfl, rfl⟩⟩

/-- C7: for every pool configuration, Submit enqueues immediately when queue
space is available; when the queue is full and no space frees within the
timeout, Submit fails with AdmissionRejected after exactly the configured
timeout (a single bounded wait, never internally retried); and with buffer
1, one thread and a 100 ms timeout, the second of two back-to-back
submissions is rejected after 100 ms when the first job has not completed. -/
theorem workerpool_submit_admission (cfg : WorkerPoolConf) (inflight : Nat) :
    (inflight < cfg.buffer →
      ∀ slot, wpSubmit cfg inflight slot = SubmitResult.enqueued 0) ∧
    (cfg.buffer ≤ inflight →
      wpSubmit cfg inflight none = SubmitResult.admissionRejected cfg.timeoutMs) ∧
    (cfg.buffer ≤ inflight → ∀ d, cfg.timeoutMs < d →
      wpSubmit cfg inflight (some d) = SubmitResult.admissionRejected cfg.timeoutMs) ∧
    (wpSubmit ⟨1, 1, 100⟩ 0 none = SubmitResult.enqueued 0 ∧
      wpSubmit ⟨1, 1, 100⟩ 1 none = SubmitResult.admissionRejected 100) := by
  refine ⟨?_, ?_, ?_, by decide, by decide⟩
  · intro h slot
    simp [wpSubmit, h]
  · intro h
    simp [wpSubmit, Nat.not_lt.mpr h]
  · intro h d hd
    simp [wpSubmit, Nat.not_lt.mpr h, Nat.not_le.mpr hd]

/-- Witness for C7: a saturated pool with a job that frees its slot only
after the timeout is rejected after exactly the timeout. -/
theorem workerpool_submit_admission_witness :
    wpSubmit ⟨2, 4, 50⟩ 2 (some 60) = SubmitResult.admissionRejected 50 :=
  (workerpool_submit_admission ⟨2, 4, 50⟩ 2).2.2.1 (by decide) 60 (by decide)

/-- C9: ApiWrite returns ErrInvalidAPIHandler whenever the variadic list is
not exactly one value implementing OtelAPIWrite; when the request parse
succeeds it calls Feed only if the parsed point list is non-empty, and it
returns the parsed response body with a nil error with the Feed error
ignored (the result does not depend on the handler's Feed outcome). -/
theorem otelcol_ApiWrite_contract :
    (∀ (parse : Except APIError WriteResult) (x : List GoValue),
        (¬ ∃ h, x = [GoValue.otel h]) →
        ApiWrite parse x = (Except.error APIError.invalidAPIHandler, [])) ∧
    (∀ (h : OtelAPIWrite) (wr : WriteResult),
        ApiWrite (Except.ok wr) [GoValue.otel h] =
          (Except.ok wr.respBody,
            if wr.points = [] then [] else [⟨wr.category, wr.points⟩])) ∧
    (∀ (h : OtelAPIWrite) (e : APIError),
        ApiWrite (Except.error e) [GoValue.otel h] = (Except.error e, [])) ∧
    (∀ (h1 h2 : OtelAPIWrite) (parse : Except APIError WriteResult),
        ApiWrite parse [GoValue.otel h1] = ApiWrite parse [GoValue.otel h2]) := by
  refine ⟨?_, ?_, fun h e => rfl, fun h1 h2 parse => rfl⟩
  · intro parse x hx
    rcases x with _ | ⟨v, rest⟩
    · rfl
    · rcases rest with _ | ⟨w, rest2⟩
      · cases v with
        | otel h => exact absurd ⟨h, rfl⟩ hx
        | other => rfl
      · rfl
  · intro h wr
    by_cases hp : wr.points = []
    · simp [ApiWrite, asOtelAPIWrite, hp]
    · simp [ApiWrite, asOtelAPIWrite, hp, List.length_eq_zero]

/-- Witness for C9: an empty variadic list is rejected with
ErrInvalidAPIHandler and no Feed call. -/
theorem otelcol_ApiWrite_contract_witness :
    ApiWrite (Except.ok ⟨"tracing", ["p1"], some "ok"⟩) [] =
      (Except.error APIError.invalidAPIHandler, []) :=
  otelcol_ApiWrite_contract.1 (Except.ok ⟨"tracing", ["p1"], some "ok"⟩) []
    (by rintro ⟨h, hh⟩; exact List.noConfusion hh)

/-- C10: the disk collect loop appends a metric point exactly for partitions
whose usage entry is non-nil with a non-zero Total; used_percent is the
division Used/(Used+Free)*100 only under the guard Used+Free > 0 — whose
rational denominator is then non-zero — and 0 otherwise. -/
theorem disk_collect_guarded (entries : List (String × Option DiskUsage)) :
    (∀ p : DiskPoint, p ∈ diskCollect entries ↔
        ∃ dev du, (dev, some du) ∈ entries ∧ du.total ≠ 0 ∧
          p = { device := dev, fstype := du.fstype, total := du.total,
                free := du.free, used := du.used, usedPct := usedPercent du }) ∧
    (∀ du : DiskUsage, du.used + du.free = 0 → usedPercent du = 0) ∧
    (∀ du : DiskUsage, du.used + du.free ≠ 0 →
        ((du.used : ℚ) + (du.free : ℚ)) ≠ 0 ∧
        usedPercent du = (du.used : ℚ) / ((du.used : ℚ) + (du.free : ℚ)) * 100) := by
  refine ⟨?_, ?_, ?_⟩
  · intro p
    constructor
    · intro hp
      rw [diskCollect, List.mem_filterMap] at hp
      obtain ⟨⟨dev, odu⟩, hmem, hfa⟩ := hp
      cases odu with
      | none => simp [collectEntry] at hfa
      | some du =>
        by_cases ht : du.total = 0
        · simp [collectEntry, ht] at hfa
        · refine ⟨dev, du, hmem, ht, ?_⟩
          simp [collectEntry, ht] at hfa
          exact hfa.symm
    · rintro ⟨dev, du, hmem, ht, rfl⟩
      rw [diskCollect, List.mem_filterMap]
      exact ⟨(dev, some du), hmem, by simp [collectEntry, ht]⟩
  · intro du h
    simp [usedPercent, h]
  · intro du h
    constructor
    · have h2 : ((du.used + du.free : ℕ) : ℚ) ≠ 0 := Nat.cast_ne_zero.mpr h
      push_cast at h2
      exact h2
    · simp [usedPercent, Nat.pos_of_ne_zero h]

/-- Witness for C10: a usage entry with zero Used and Free reports a zero
used_percent, and a non-degenerate entry takes the guarded division. -/
theorem disk_collect_guarded_witness :
    usedPercent ⟨100, 0, 0, "tmpfs"⟩ = 0 ∧
    usedPercent ⟨100, 25, 75, "ext4"⟩ =
      ((25 : ℚ) / ((25 : ℚ) + (75 : ℚ)) * 100) :=
  ⟨(disk_collect_guarded []).2.1 ⟨100, 0, 0, "tmpfs"⟩ rfl,
   ((disk_collect_guarded []).2.2 ⟨100, 25, 75, "ext4"⟩ (by decide)).2⟩
